import Mathlib

/-!
Shallow embedding of the game-session state machine and scoring engine of the
group-question-game repository (the tRPC game router in the sessions/players
mutation handlers), together with proofs of the spec claims about it.

The relational store is modelled as explicit lists of rows; each tRPC mutation
becomes a pure function from a database value (plus its inputs and, where the
source reads the clock or a random source, explicit `now` / `rand` parameters)
to `Except Err (new database, returned payload)`.  An `Except.error` result
models a thrown TRPCError inside the transaction: the transaction rolls back,
so the database is unchanged.
-/

set_option maxRecDepth 4000

namespace GroupQuestionGame

/-- tRPC error codes used by the modelled handlers. -/
inductive ErrCode where
  | NOT_FOUND
  | BAD_REQUEST
  | CONFLICT
deriving DecidableEq, Repr

/-- A thrown TRPCError: code plus message.  Where the source interpolates the
current status into the message, the model keeps the constant head of the
message. -/
structure Err where
  code : ErrCode
  message : String
deriving DecidableEq, Repr

/-- `SessionStatus` from src/db/schema. -/
inductive SessionStatus where
  | lobby
  | active
  | revealing
  | ended
deriving DecidableEq, Repr

/-- `question_type` of a question: `single` or `multi`. -/
inductive QType where
  | single
  | multi
deriving DecidableEq, Repr

/-- A row of `questionBanksTable` (only the columns the modelled handlers read). -/
structure QuestionBank where
  id : Nat
  name : String
deriving DecidableEq, Repr

/-- A row of `questionsTable` (columns read by the game router). -/
structure Question where
  id : Nat
  bank_id : Nat
  question_type : QType
deriving DecidableEq, Repr

/-- A row of `answerOptionsTable` (columns read by the game router). -/
structure AnswerOption where
  id : Nat
  question_id : Nat
  is_correct : Bool
deriving DecidableEq, Repr

/-- A row of `gameSessionsTable` (columns read or written by the handlers). -/
structure Session where
  id : Nat
  slug : String
  bank_id : Nat
  admin_id : Nat
  status : SessionStatus
  current_question_id : Option Nat
  round_started_at : Option Nat
  round_duration_seconds : Nat
  winner_player_id : Option String
  ended_at : Option Nat
deriving DecidableEq, Repr

/-- A row of `usedQuestionsTable`. -/
structure UsedQuestion where
  session_id : Nat
  question_id : Nat
  question_order : Nat
deriving DecidableEq, Repr

/-- A row of `playersTable` (columns read or written by the modelled handlers). -/
structure Player where
  id : String
  session_id : Nat
  score : Int
  is_connected : Bool
  last_seen_at : Nat
deriving DecidableEq, Repr

/-- A row of `playerResponsesTable`. -/
structure PlayerResponse where
  player_id : String
  session_id : Nat
  question_id : Nat
  selected_option_ids : List Nat
  points_earned : Int
deriving DecidableEq, Repr

/-- The relational store: one list of rows per table, in storage order. -/
structure DB where
  banks : List QuestionBank
  sessions : List Session
  questions : List Question
  options : List AnswerOption
  usedQuestions : List UsedQuestion
  players : List Player
  responses : List PlayerResponse
deriving DecidableEq, Repr

/-- The `validTransitions` record at the top of the game router. -/
def validTransitions : SessionStatus → List SessionStatus
  | .lobby => [.active]
  | .active => [.revealing]
  | .revealing => [.active, .ended]
  | .ended => []

/-- `canTransition(from, to)` from the game router. -/
def canTransition (source target : SessionStatus) : Bool :=
  (validTransitions source).contains target

/-- Question-ids already used in a session: the `usedIds` query of
`drawRandomQuestion`. -/
def usedIdsFor (db : DB) (sessionId : Nat) : List Nat :=
  (db.usedQuestions.filter (fun u => u.session_id = sessionId)).map
    (fun u => u.question_id)

/-- The `availableQuestions` query of `drawRandomQuestion`: the questions of
the bank not yet used in the session.  The source issues the bank query
without the `notInArray` clause when no ids are used yet; since filtering by
non-membership in the empty list keeps every row, the single filtered query
is equivalent. -/
def availableFor (db : DB) (sessionId bankId : Nat) : List Question :=
  db.questions.filter
    (fun q => q.bank_id = bankId ∧ q.id ∉ usedIdsFor db sessionId)

/-- `drawRandomQuestion(tx, sessionId, bankId)`: null when no candidate
remains, else a uniformly random candidate.  `Math.random()` is modelled by
the explicit `rand` parameter; the chosen index `rand % length` ranges over
the whole candidate list exactly as `Math.floor(Math.random() * length)`
does. -/
def drawRandomQuestion (db : DB) (sessionId bankId : Nat) (rand : Nat) :
    Option Question :=
  if (availableFor db sessionId bankId).isEmpty then none
  else (availableFor db sessionId bankId).get?
    (rand % (availableFor db sessionId bankId).length)

/-- All players of a session, in storage order. -/
def playersOf (db : DB) (sessionId : Nat) : List Player :=
  db.players.filter (fun p => p.session_id = sessionId)

/-- One fold step of the winner computation: keep the earlier player unless the
new one has a strictly higher score. -/
def pickTopScorer (best : Option Player) (p : Player) : Option Player :=
  match best with
  | none => some p
  | some b => if p.score > b.score then some p else some b

/-- `calculateWinner(tx, sessionId)`: the source sorts the players of the
session by descending score (a stable sort over the storage order) and takes
the first row, or null when there are none.  The first row of such a sort is
the earliest player attaining the maximal score, which is what the fold
computes. -/
def calculateWinner (db : DB) (sessionId : Nat) : Option Player :=
  (playersOf db sessionId).foldl pickTopScorer none

/-- Admin-scoped session lookup: the `where (id = sessionId and admin_id =
ctx.session.user.id)` select at the head of each admin mutation. -/
def findSessionAdmin (db : DB) (sessionId adminId : Nat) : Option Session :=
  (db.sessions.filter (fun s => s.id = sessionId ∧ s.admin_id = adminId)).head?

/-- Public session lookup by id (used by `submitAnswer`). -/
def findSessionById (db : DB) (sessionId : Nat) : Option Session :=
  (db.sessions.filter (fun s => s.id = sessionId)).head?

/-- A drizzle `update ... where id = sessionId` over the sessions table. -/
def updateSessions (sessions : List Session) (sessionId : Nat)
    (f : Session → Session) : List Session :=
  sessions.map (fun s => if s.id = sessionId then f s else s)

/-- A drizzle `update ... where id = playerId` over the players table. -/
def updatePlayers (players : List Player) (playerId : String)
    (f : Player → Player) : List Player :=
  players.map (fun p => if p.id = playerId then f p else p)

/-- The session update applied by `startGame` and `nextQuestion` once a
question has been drawn. -/
def setRoundActive (questionId now : Nat) (s : Session) : Session :=
  { s with status := .active, current_question_id := some questionId,
           round_started_at := some now }

/-- `startGame` mutation of the game router. -/
def startGame (db : DB) (adminId sessionId rand now : Nat) :
    Except Err (DB × Session) :=
  match findSessionAdmin db sessionId adminId with
  | none => .error ⟨.NOT_FOUND, "Game session not found"⟩
  | some session =>
    if !canTransition session.status .active then
      .error ⟨.BAD_REQUEST, "Cannot start game from current state"⟩
    else if (playersOf db sessionId).isEmpty then
      .error ⟨.BAD_REQUEST, "Cannot start game without players"⟩
    else
      match drawRandomQuestion db sessionId session.bank_id rand with
      | none => .error ⟨.BAD_REQUEST, "No questions available in the bank"⟩
      | some question =>
        let usedCount :=
          (db.usedQuestions.filter (fun u => u.session_id = sessionId)).length
        .ok ({ db with
                usedQuestions := db.usedQuestions ++
                  [⟨sessionId, question.id, usedCount + 1⟩],
                sessions :=
                  updateSessions db.sessions sessionId
                    (setRoundActive question.id now) },
             setRoundActive question.id now session)

/-- `nextQuestion` mutation of the game router: same body as `startGame` but
without the player-count check and with a distinct exhausted message. -/
def nextQuestion (db : DB) (adminId sessionId rand now : Nat) :
    Except Err (DB × Session) :=
  match findSessionAdmin db sessionId adminId with
  | none => .error ⟨.NOT_FOUND, "Game session not found"⟩
  | some session =>
    if !canTransition session.status .active then
      .error ⟨.BAD_REQUEST, "Cannot go to next question from current state"⟩
    else
      match drawRandomQuestion db sessionId session.bank_id rand with
      | none =>
        .error ⟨.BAD_REQUEST, "No more questions available. Consider ending the game."⟩
      | some question =>
        let usedCount :=
          (db.usedQuestions.filter (fun u => u.session_id = sessionId)).length
        .ok ({ db with
                usedQuestions := db.usedQuestions ++
                  [⟨sessionId, question.id, usedCount + 1⟩],
                sessions :=
                  updateSessions db.sessions sessionId
                    (setRoundActive question.id now) },
             setRoundActive question.id now session)

/-- `forceReveal` mutation of the game router. -/
def forceReveal (db : DB) (adminId sessionId : Nat) :
    Except Err (DB × Session) :=
  match findSessionAdmin db sessionId adminId with
  | none => .error ⟨.NOT_FOUND, "Game session not found"⟩
  | some session =>
    if !canTransition session.status .revealing then
      .error ⟨.BAD_REQUEST, "Cannot reveal answer from current state"⟩
    else
      .ok ({ db with
              sessions := updateSessions db.sessions sessionId
                (fun s => { s with status := .revealing }) },
           { session with status := .revealing })

/-- The session update applied by `endGame`. -/
def setEnded (winner : Option Player) (now : Nat) (s : Session) : Session :=
  { s with status := .ended, winner_player_id := winner.map (fun w => w.id),
           ended_at := some now }

/-- `endGame` mutation of the game router.  The status guard is written
outside the transition table in the source: end is allowed from `revealing`,
`active` or `lobby`. -/
def endGame (db : DB) (adminId sessionId now : Nat) :
    Except Err (DB × Session × Option Player) :=
  match findSessionAdmin db sessionId adminId with
  | none => .error ⟨.NOT_FOUND, "Game session not found"⟩
  | some session =>
    if session.status ≠ .revealing ∧ session.status ≠ .active ∧
        session.status ≠ .lobby then
      .error ⟨.BAD_REQUEST, "Cannot end game from current state"⟩
    else
      let winner := calculateWinner db sessionId
      .ok ({ db with
              sessions := updateSessions db.sessions sessionId
                (setEnded winner now) },
           setEnded winner now session, winner)

/-- Ids of the options of a question marked correct. -/
def correctIds (options : List AnswerOption) : List Nat :=
  (options.filter (fun o => o.is_correct)).map (fun o => o.id)

/-- Ids of the options of a question not marked correct. -/
def incorrectIds (options : List AnswerOption) : List Nat :=
  (options.filter (fun o => !o.is_correct)).map (fun o => o.id)

/-- The points computation inside `submitAnswer`, factored out over the
question type, the question's options and the selected ids, exactly as the
source computes it. -/
def computePoints (questionType : QType) (options : List AnswerOption)
    (selected : List Nat) : Int :=
  match questionType with
  | .single =>
    if selected.length = 1 ∧ (selected.headD 0) ∈ correctIds options then 1
    else 0
  | .multi =>
    selected.foldl
      (fun points selectedId =>
        if selectedId ∈ correctIds options then points + 1
        else if selectedId ∈ incorrectIds options then points - 1
        else points)
      0

/-- The options of a question, as queried by `submitAnswer`. -/
def optionsOf (db : DB) (questionId : Nat) : List AnswerOption :=
  db.options.filter (fun o => o.question_id = questionId)

/-- Question lookup by id. -/
def findQuestion (db : DB) (questionId : Nat) : Option Question :=
  (db.questions.filter (fun q => q.id = questionId)).head?

/-- Player lookup scoped to a session (the `where (id = playerId and
session_id = sessionId)` select of `submitAnswer`). -/
def findPlayer (db : DB) (playerId : String) (sessionId : Nat) :
    Option Player :=
  (db.players.filter (fun p => p.id = playerId ∧ p.session_id = sessionId)).head?

/-- The payload returned by a successful `submitAnswer` (minus the opaque
transaction token). -/
structure SubmitResult where
  response : PlayerResponse
  points : Int
  newScore : Int
  allAnswered : Bool
deriving DecidableEq, Repr

/-- `submitAnswer` mutation of the game router. -/
def submitAnswer (db : DB) (playerId : String) (sessionId questionId : Nat)
    (selectedOptionIds : List Nat) : Except Err (DB × SubmitResult) :=
  match findSessionById db sessionId with
  | none => .error ⟨.NOT_FOUND, "Game session not found"⟩
  | some session =>
    if session.status ≠ .active then
      .error ⟨.BAD_REQUEST, "Cannot submit answer when game is not active"⟩
    else if session.current_question_id ≠ some questionId then
      .error ⟨.BAD_REQUEST, "This is not the current question"⟩
    else
      match findPlayer db playerId sessionId with
      | none => .error ⟨.NOT_FOUND, "Player not found in this session"⟩
      | some player =>
        if !(db.responses.filter
              (fun r => r.player_id = playerId ∧ r.question_id = questionId)).isEmpty then
          .error ⟨.BAD_REQUEST, "You have already answered this question"⟩
        else
          match findQuestion db questionId with
          | none => .error ⟨.NOT_FOUND, "Question not found"⟩
          | some question =>
            let options := optionsOf db questionId
            let points := computePoints question.question_type options selectedOptionIds
            let response : PlayerResponse :=
              ⟨playerId, sessionId, questionId, selectedOptionIds, points⟩
            let newResponses := db.responses ++ [response]
            let newPlayers := updatePlayers db.players playerId
              (fun p => { p with score := player.score + points })
            let connectedPlayers := newPlayers.filter
              (fun p => p.session_id = sessionId ∧ p.is_connected)
            let answered := newResponses.filter
              (fun r => r.session_id = sessionId ∧ r.question_id = questionId)
            let allAnswered : Bool := decide (connectedPlayers.length ≤ answered.length)
            let newSessions :=
              if allAnswered then
                updateSessions db.sessions sessionId
                  (fun s => { s with status := .revealing })
              else db.sessions
            .ok ({ db with responses := newResponses, players := newPlayers,
                           sessions := newSessions },
                 ⟨response, points, player.score + points, allAnswered⟩)

/-- `heartbeat` mutation of the players router: touches `last_seen_at` and
sets `is_connected`; throws NOT_FOUND (rolling back) when no row was updated. -/
def heartbeat (db : DB) (playerId : String) (now : Nat) : Except Err DB :=
  if (db.players.filter (fun p => p.id = playerId)).isEmpty then
    .error ⟨.NOT_FOUND, "Player not found"⟩
  else
    .ok { db with players :=
            (updatePlayers db.players playerId
              (fun p => { p with last_seen_at := now, is_connected := true })) }

/-- Whether some session already uses a slug. -/
def slugTaken (db : DB) (slug : String) : Bool :=
  !(db.sessions.filter (fun s => s.slug = slug)).isEmpty

/-- The slug-uniquifying loop of `sessions.create`: try `base-1`, `base-2`,
... until a free slug is found.  The source loop is unbounded; since at most
`db.sessions.length` slugs are taken, among the first `length + 1` candidates
one is always free, so that much fuel makes the recursion total without
changing the result. -/
def uniquifyFrom (db : DB) (base : String) : Nat → Nat → String
  | _, 0 => base
  | counter, fuel + 1 =>
    let testSlug := base ++ "-" ++ toString counter
    if slugTaken db testSlug then uniquifyFrom db base (counter + 1) fuel
    else testSlug

/-- Slug selection of `sessions.create`: keep the requested slug when free,
otherwise uniquify. -/
def uniquifySlug (db : DB) (slug : String) : String :=
  if slugTaken db slug then uniquifyFrom db slug 1 (db.sessions.length + 1)
  else slug

/-- `sessions.create` mutation: checks the bank exists and is non-empty,
uniquifies the slug and inserts a fresh session in `lobby` with no current
question.  The store-generated serial id is the explicit `newId` parameter. -/
def createSession (db : DB) (adminId : Nat) (slug : String) (bankId : Nat)
    (roundDurationSeconds : Nat) (newId : Nat) : Except Err (DB × Session) :=
  match (db.banks.filter (fun b => b.id = bankId)).head? with
  | none => .error ⟨.NOT_FOUND, "Question bank not found"⟩
  | some _ =>
    if (db.questions.filter (fun q => q.bank_id = bankId)).isEmpty then
      .error ⟨.BAD_REQUEST, "Question bank has no questions"⟩
    else
      let newSession : Session :=
        { id := newId, slug := uniquifySlug db slug, bank_id := bankId,
          admin_id := adminId, status := .lobby, current_question_id := none,
          round_started_at := none,
          round_duration_seconds := roundDurationSeconds,
          winner_player_id := none, ended_at := none }
      .ok ({ db with sessions := db.sessions ++ [newSession] }, newSession)

/-- One successful run of any of the five game-router mutations named by the
state-machine claims. -/
inductive GameStep : DB → DB → Prop where
  | start : ∀ db adminId sessionId rand now db' s,
      startGame db adminId sessionId rand now = .ok (db', s) → GameStep db db'
  | next : ∀ db adminId sessionId rand now db' s,
      nextQuestion db adminId sessionId rand now = .ok (db', s) → GameStep db db'
  | reveal : ∀ db adminId sessionId db' s,
      forceReveal db adminId sessionId = .ok (db', s) → GameStep db db'
  | finish : ∀ db adminId sessionId now db' s w,
      endGame db adminId sessionId now = .ok (db', s, w) → GameStep db db'
  | submit : ∀ db playerId sessionId questionId selected db' r,
      submitAnswer db playerId sessionId questionId selected = .ok (db', r) →
      GameStep db db'

/-- A `GameStep` or a successful `sessions.create`. -/
inductive SysStep : DB → DB → Prop where
  | game : ∀ db db', GameStep db db' → SysStep db db'
  | create : ∀ db adminId slug bankId dur newId db' s,
      createSession db adminId slug bankId dur newId = .ok (db', s) →
      SysStep db db'

/-! ### Concrete sample states used by the witnesses and counterexamples -/

/-- A one-session world still in the lobby: bank 1 with a single-type question
11 (options 101 correct, 102 incorrect), session 5 owned by admin 7, and two
connected players. -/
def sessionLobby : Session :=
  { id := 5, slug := "family-night", bank_id := 1, admin_id := 7,
    status := .lobby, current_question_id := none,
    round_started_at := none, round_duration_seconds := 30,
    winner_player_id := none, ended_at := none }

/-- The full sample world while still in the lobby. -/
def dbLobby : DB :=
  { banks := [⟨1, "General"⟩],
    sessions := [sessionLobby],
    questions := [⟨11, 1, .single⟩],
    options := [⟨101, 11, true⟩, ⟨102, 11, false⟩],
    usedQuestions := [],
    players := [⟨"p1", 5, 0, true, 0⟩, ⟨"p2", 5, 0, true, 0⟩],
    responses := [] }

/-- Options of a sample multi-type question: ids 1 and 2 correct, 3 not. -/
def optsMulti : List AnswerOption :=
  [⟨1, 12, true⟩, ⟨2, 12, true⟩, ⟨3, 12, false⟩]

/-- The sample session while question 11 is being played. -/
def sessionActive : Session :=
  { id := 5, slug := "family-night", bank_id := 1, admin_id := 7,
    status := .active, current_question_id := some 11,
    round_started_at := some 1, round_duration_seconds := 30,
    winner_player_id := none, ended_at := none }

/-- The sample session once forced into `revealing`. -/
def sessionRevealing : Session :=
  { sessionActive with status := .revealing }

/-- `dbLobby` after `startGame`: question 11 is current and marked used. -/
def dbActive : DB :=
  { dbLobby with
    sessions := [sessionActive],
    usedQuestions := [⟨5, 11, 1⟩] }

/-- `dbActive` after `forceReveal`. -/
def dbRevealing : DB :=
  { dbActive with sessions := [sessionRevealing] }

/-- `dbActive` after player p1 answered correctly (status still `active`
because p2 has not answered yet). -/
def dbAnswered : DB :=
  { dbActive with
    players := [⟨"p1", 5, 1, true, 0⟩, ⟨"p2", 5, 0, true, 0⟩],
    responses := [⟨"p1", 5, 11, [101], 1⟩] }

/-- The sample session after `endGame`: status `ended` but
`current_question_id` still set to question 11. -/
def sessionEnded : Session :=
  { sessionActive with
      status := .ended, winner_player_id := some "p1", ended_at := some 2 }

/-- `dbAnswered` after `endGame`. -/
def dbEnded : DB :=
  { dbAnswered with sessions := [sessionEnded] }

/-- `dbAnswered` after p2 also answered (wrongly): every connected player has
answered, so the session auto-advanced to `revealing`. -/
def dbAllAnswered : DB :=
  { dbAnswered with
    sessions := [sessionRevealing],
    responses := [⟨"p1", 5, 11, [101], 1⟩, ⟨"p2", 5, 11, [102], 0⟩] }

/-- `dbActive` with p1 marked disconnected. -/
def dbDisconnected : DB :=
  { dbActive with players := [⟨"p1", 5, 0, false, 3⟩, ⟨"p2", 5, 0, true, 0⟩] }

/-- A lobby world with two players A (score 5) and B (score 9), for the
winner-resolution example of the spec. -/
def dbTwoPlayers : DB :=
  { dbLobby with players := [⟨"A", 5, 5, true, 0⟩, ⟨"B", 5, 9, true, 0⟩] }

/-- The claimed invariant of the spec data model: `current_question_id` is
null exactly when the status is `lobby` or `ended`. -/
def CqidNullIffLobbyOrEnded (db : DB) : Prop :=
  ∀ s ∈ db.sessions,
    (s.current_question_id = none ↔ (s.status = .lobby ∨ s.status = .ended))

instance (db : DB) : Decidable (CqidNullIffLobbyOrEnded db) := by
  unfold CqidNullIffLobbyOrEnded; infer_instance

/-- The amended invariant that the code actually maintains: no current
question while in the lobby, always a current question while `active` or
`revealing`, and no constraint once `ended`. -/
def CqidInv (db : DB) : Prop :=
  ∀ s ∈ db.sessions,
    (s.status = .lobby → s.current_question_id = none) ∧
    ((s.status = .active ∨ s.status = .revealing) →
      s.current_question_id ≠ none)

instance (db : DB) : Decidable (CqidInv db) := by
  unfold CqidInv; infer_instance

/-- The status changes the spec transition table (plus the end-game
exception) allows, alongside no change at all. -/
def statusChangeLegal (before after : SessionStatus) : Prop :=
  before = after ∨
  (before = .lobby ∧ after = .active) ∨
  (before = .active ∧ after = .revealing) ∨
  (before = .revealing ∧ after = .active) ∨
  ((before = .lobby ∨ before = .active ∨ before = .revealing) ∧
    after = .ended)

instance (a b : SessionStatus) : Decidable (statusChangeLegal a b) := by
  unfold statusChangeLegal; infer_instance

/-! ### Generic helper lemmas -/

theorem head?_filter_spec {α : Type} {p : α → Bool} {l : List α} {x : α}
    (h : (l.filter p).head? = some x) : x ∈ l ∧ p x = true := by
  have hx : x ∈ l.filter p := by
    cases hl : l.filter p with
    | nil => rw [hl] at h; cases h
    | cons a t =>
      rw [hl] at h
      simp only [List.head?, Option.some.injEq] at h
      rw [← h]
      exact List.mem_cons_self a t
  exact List.mem_filter.mp hx

theorem updateSessions_mem {sessions : List Session} {sessionId : Nat}
    {f : Session → Session} {s' : Session}
    (h : s' ∈ updateSessions sessions sessionId f) :
    ∃ s, s ∈ sessions ∧
      ((s.id = sessionId ∧ s' = f s) ∨ (s.id ≠ sessionId ∧ s' = s)) := by
  unfold updateSessions at h
  obtain ⟨s, hs, heq⟩ := List.mem_map.mp h
  by_cases hid : s.id = sessionId
  · exact ⟨s, hs, Or.inl ⟨hid, by rw [← heq, if_pos hid]⟩⟩
  · exact ⟨s, hs, Or.inr ⟨hid, by rw [← heq, if_neg hid]⟩⟩

theorem updatePlayers_mem {players : List Player} {playerId : String}
    {f : Player → Player} {p' : Player}
    (h : p' ∈ updatePlayers players playerId f) :
    ∃ p, p ∈ players ∧
      ((p.id = playerId ∧ p' = f p) ∨ (p.id ≠ playerId ∧ p' = p)) := by
  unfold updatePlayers at h
  obtain ⟨p, hp, heq⟩ := List.mem_map.mp h
  by_cases hid : p.id = playerId
  · exact ⟨p, hp, Or.inl ⟨hid, by rw [← heq, if_pos hid]⟩⟩
  · exact ⟨p, hp, Or.inr ⟨hid, by rw [← heq, if_neg hid]⟩⟩

theorem player_unique {db : DB} (hnd : (db.players.map Player.id).Nodup)
    {p q : Player} (hp : p ∈ db.players) (hq : q ∈ db.players)
    (hid : p.id = q.id) : p = q :=
  List.inj_on_of_nodup_map hnd hp hq hid

theorem session_unique {db : DB} (hnd : (db.sessions.map Session.id).Nodup)
    {s t : Session} (hs : s ∈ db.sessions) (ht : t ∈ db.sessions)
    (hid : s.id = t.id) : s = t :=
  List.inj_on_of_nodup_map hnd hs ht hid

theorem findSessionAdmin_some {db : DB} {sessionId adminId : Nat} {s : Session}
    (h : findSessionAdmin db sessionId adminId = some s) :
    s ∈ db.sessions ∧ s.id = sessionId ∧ s.admin_id = adminId := by
  unfold findSessionAdmin at h
  obtain ⟨hmem, hp⟩ := head?_filter_spec h
  simp only [decide_eq_true_eq] at hp
  exact ⟨hmem, hp.1, hp.2⟩

theorem findSessionById_some {db : DB} {sessionId : Nat} {s : Session}
    (h : findSessionById db sessionId = some s) :
    s ∈ db.sessions ∧ s.id = sessionId := by
  unfold findSessionById at h
  obtain ⟨hmem, hp⟩ := head?_filter_spec h
  simp only [decide_eq_true_eq] at hp
  exact ⟨hmem, hp⟩

theorem findPlayer_some {db : DB} {playerId : String} {sessionId : Nat}
    {p : Player} (h : findPlayer db playerId sessionId = some p) :
    p ∈ db.players ∧ p.id = playerId ∧ p.session_id = sessionId := by
  unfold findPlayer at h
  obtain ⟨hmem, hp⟩ := head?_filter_spec h
  simp only [decide_eq_true_eq] at hp
  exact ⟨hmem, hp.1, hp.2⟩

theorem findQuestion_some {db : DB} {questionId : Nat} {q : Question}
    (h : findQuestion db questionId = some q) :
    q ∈ db.questions ∧ q.id = questionId := by
  unfold findQuestion at h
  obtain ⟨hmem, hp⟩ := head?_filter_spec h
  simp only [decide_eq_true_eq] at hp
  exact ⟨hmem, hp⟩

/-! ### Inversion lemmas: what a successful mutation did -/

theorem startGame_ok {db : DB} {adminId sessionId rand now : Nat} {db' : DB}
    {res : Session}
    (h : startGame db adminId sessionId rand now = .ok (db', res)) :
    ∃ session question,
      findSessionAdmin db sessionId adminId = some session ∧
      canTransition session.status .active = true ∧
      drawRandomQuestion db sessionId session.bank_id rand = some question ∧
      db' = { db with
              usedQuestions := db.usedQuestions ++
                [⟨sessionId, question.id,
                  (db.usedQuestions.filter
                    (fun u => u.session_id = sessionId)).length + 1⟩],
              sessions := updateSessions db.sessions sessionId
                (setRoundActive question.id now) } ∧
      res = setRoundActive question.id now session := by
  unfold startGame at h
  split at h
  · cases h
  · rename_i session hfind
    split at h
    · cases h
    · rename_i hcond
      split at h
      · cases h
      · split at h
        · cases h
        · rename_i question hdraw
          simp only [Except.ok.injEq, Prod.mk.injEq] at h
          refine ⟨session, question, hfind, ?_, hdraw, h.1.symm, h.2.symm⟩
          simpa using hcond

theorem nextQuestion_ok {db : DB} {adminId sessionId rand now : Nat} {db' : DB}
    {res : Session}
    (h : nextQuestion db adminId sessionId rand now = .ok (db', res)) :
    ∃ session question,
      findSessionAdmin db sessionId adminId = some session ∧
      canTransition session.status .active = true ∧
      drawRandomQuestion db sessionId session.bank_id rand = some question ∧
      db' = { db with
              usedQuestions := db.usedQuestions ++
                [⟨sessionId, question.id,
                  (db.usedQuestions.filter
                    (fun u => u.session_id = sessionId)).length + 1⟩],
              sessions := updateSessions db.sessions sessionId
                (setRoundActive question.id now) } ∧
      res = setRoundActive question.id now session := by
  unfold nextQuestion at h
  split at h
  · cases h
  · rename_i session hfind
    split at h
    · cases h
    · rename_i hcond
      split at h
      · cases h
      · rename_i question hdraw
        simp only [Except.ok.injEq, Prod.mk.injEq] at h
        refine ⟨session, question, hfind, ?_, hdraw, h.1.symm, h.2.symm⟩
        simpa using hcond

theorem forceReveal_ok {db : DB} {adminId sessionId : Nat} {db' : DB}
    {res : Session}
    (h : forceReveal db adminId sessionId = .ok (db', res)) :
    ∃ session,
      findSessionAdmin db sessionId adminId = some session ∧
      canTransition session.status .revealing = true ∧
      db' = { db with
              sessions := updateSessions db.sessions sessionId
                (fun s => { s with status := .revealing }) } ∧
      res = { session with status := .revealing } := by
  unfold forceReveal at h
  split at h
  · cases h
  · rename_i session hfind
    split at h
    · cases h
    · rename_i hcond
      simp only [Except.ok.injEq, Prod.mk.injEq] at h
      refine ⟨session, hfind, ?_, h.1.symm, h.2.symm⟩
      simpa using hcond

theorem endGame_ok {db : DB} {adminId sessionId now : Nat} {db' : DB}
    {res : Session} {w : Option Player}
    (h : endGame db adminId sessionId now = .ok (db', res, w)) :
    ∃ session,
      findSessionAdmin db sessionId adminId = some session ∧
      (session.status = .revealing ∨ session.status = .active ∨
        session.status = .lobby) ∧
      w = calculateWinner db sessionId ∧
      db' = { db with
              sessions := updateSessions db.sessions sessionId
                (setEnded w now) } ∧
      res = setEnded w now session := by
  unfold endGame at h
  split at h
  · cases h
  · rename_i session hfind
    split at h
    · cases h
    · rename_i hcond
      simp only [Except.ok.injEq, Prod.mk.injEq] at h
      obtain ⟨h1, h2, h3⟩ := h
      subst h3
      refine ⟨session, hfind, ?_, rfl, h1.symm, h2.symm⟩
      by_contra hall
      push_neg at hall
      exact hcond ⟨hall.1, hall.2.1, hall.2.2⟩

theorem endGame_rejected_when_ended {db : DB} {adminId sessionId now : Nat}
    {session : Session}
    (hfind : findSessionAdmin db sessionId adminId = some session)
    (hst : session.status = .ended) :
    endGame db adminId sessionId now =
      .error ⟨.BAD_REQUEST, "Cannot end game from current state"⟩ := by
  unfold endGame
  rw [hfind]
  dsimp only
  rw [if_pos (by rw [hst]; refine ⟨?_, ?_, ?_⟩ <;> decide)]

theorem submitAnswer_ok {db : DB} {playerId : String}
    {sessionId questionId : Nat} {sel : List Nat} {db' : DB} {r : SubmitResult}
    (h : submitAnswer db playerId sessionId questionId sel = .ok (db', r)) :
    ∃ session player question,
      findSessionById db sessionId = some session ∧
      session.status = .active ∧
      session.current_question_id = some questionId ∧
      findPlayer db playerId sessionId = some player ∧
      db.responses.filter
        (fun x => x.player_id = playerId ∧ x.question_id = questionId) = [] ∧
      findQuestion db questionId = some question ∧
      r.points = computePoints question.question_type (optionsOf db questionId) sel ∧
      r.response = ⟨playerId, sessionId, questionId, sel, r.points⟩ ∧
      r.newScore = player.score + r.points ∧
      db'.responses = db.responses ++ [r.response] ∧
      db'.players = updatePlayers db.players playerId
        (fun p => { p with score := player.score + r.points }) ∧
      r.allAnswered = decide
        ((db'.players.filter
            (fun p => p.session_id = sessionId ∧ p.is_connected)).length ≤
          (db'.responses.filter
            (fun x => x.session_id = sessionId ∧
              x.question_id = questionId)).length) ∧
      db'.sessions = (if r.allAnswered then
          updateSessions db.sessions sessionId
            (fun s => { s with status := .revealing })
        else db.sessions) ∧
      db'.usedQuestions = db.usedQuestions ∧
      db'.questions = db.questions ∧
      db'.options = db.options ∧
      db'.banks = db.banks := by
  unfold submitAnswer at h
  split at h
  · cases h
  · rename_i session hfind
    split at h
    · cases h
    · rename_i hactive
      split at h
      · cases h
      · rename_i hcur
        split at h
        · cases h
        · rename_i player hplayer
          split at h
          · cases h
          · rename_i hnodup
            split at h
            · cases h
            · rename_i question hq
              simp only [Except.ok.injEq, Prod.mk.injEq] at h
              obtain ⟨hdb, hr⟩ := h
              subst hdb
              subst hr
              refine ⟨session, player, question, hfind, ?_, ?_, hplayer,
                ?_, hq, rfl, rfl, rfl, rfl, rfl, rfl, rfl, rfl, rfl, rfl, rfl⟩
              · simpa using hactive
              · simpa using hcur
              · simpa using hnodup

/-! ### Lemmas about the question draw engine -/

theorem availableFor_mem {db : DB} {sessionId bankId : Nat} {q : Question}
    (h : q ∈ availableFor db sessionId bankId) :
    q ∈ db.questions ∧ q.bank_id = bankId ∧ q.id ∉ usedIdsFor db sessionId := by
  have hm := List.mem_filter.mp h
  refine ⟨hm.1, ?_⟩
  simpa using hm.2

theorem drawRandomQuestion_mem {db : DB} {sessionId bankId rand : Nat}
    {q : Question}
    (h : drawRandomQuestion db sessionId bankId rand = some q) :
    q ∈ availableFor db sessionId bankId := by
  unfold drawRandomQuestion at h
  split at h
  · cases h
  · exact List.get?_mem h

theorem drawRandomQuestion_none_iff {db : DB} {sessionId bankId rand : Nat} :
    drawRandomQuestion db sessionId bankId rand = none ↔
      availableFor db sessionId bankId = [] := by
  unfold drawRandomQuestion
  by_cases hemp : (availableFor db sessionId bankId).isEmpty
  · rw [if_pos hemp]
    simp only [List.isEmpty_iff] at hemp
    simp [hemp]
  · rw [if_neg hemp]
    have hne : availableFor db sessionId bankId ≠ [] := by
      simpa [List.isEmpty_iff] using hemp
    have hlen : 0 < (availableFor db sessionId bankId).length :=
      List.length_pos.mpr hne
    rw [List.get?_eq_get (Nat.mod_lt rand hlen)]
    simp [hne]

/-- Helper projections for statuses allowed to move to `active`. -/
theorem canTransition_to_active {σ : SessionStatus}
    (h : canTransition σ .active = true) : σ = .lobby ∨ σ = .revealing := by
  cases σ
  · exact Or.inl rfl
  · exact absurd h (by decide)
  · exact Or.inr rfl
  · exact absurd h (by decide)

/-- Helper projection for statuses allowed to move to `revealing`. -/
theorem canTransition_to_revealing {σ : SessionStatus}
    (h : canTransition σ .revealing = true) : σ = .active := by
  cases σ
  · exact absurd h (by decide)
  · rfl
  · exact absurd h (by decide)
  · exact absurd h (by decide)

/-- C1: For every game session, the status field only ever changes along the
transitions lobby→active, active→revealing, revealing→active, and
revealing→ended, with the one exception that endGame may set status to ended
from any of lobby, active, or revealing but is rejected when the status is
already ended; no operation (startGame, nextQuestion, forceReveal, endGame,
or the auto-advance of submitAnswer) produces any other status change. -/
theorem status_transitions_follow_table :
    (∀ db db', GameStep db db' → (db.sessions.map Session.id).Nodup →
      ∀ s', s' ∈ db'.sessions →
        ∃ s, s ∈ db.sessions ∧ s.id = s'.id ∧
          statusChangeLegal s.status s'.status) ∧
    (∀ db adminId sessionId now session,
      findSessionAdmin db sessionId adminId = some session →
      session.status = .ended →
      endGame db adminId sessionId now =
        .error ⟨.BAD_REQUEST, "Cannot end game from current state"⟩) := by
  constructor
  · intro db db' hstep hnd s' hs'
    cases hstep with
    | start =>
      rename_i adminId sessionId rand now res hok
      obtain ⟨session, question, hfind, hc, hdraw, hdb, hres⟩ := startGame_ok hok
      subst hdb
      obtain ⟨s, hs, hcase⟩ := updateSessions_mem hs'
      rcases hcase with ⟨hid, hfs⟩ | ⟨hnid, hfs⟩
      · obtain ⟨hmem, hsid, -⟩ := findSessionAdmin_some hfind
        have hss : s = session := session_unique hnd hs hmem (by rw [hid, hsid])
        refine ⟨s, hs, by rw [hfs]; rfl, ?_⟩
        rw [hfs]
        rcases canTransition_to_active (hss ▸ hc) with hl | hr
        · exact Or.inr (Or.inl ⟨hl, rfl⟩)
        · exact Or.inr (Or.inr (Or.inr (Or.inl ⟨hr, rfl⟩)))
      · exact ⟨s, hs, by rw [hfs], Or.inl (by rw [hfs])⟩
    | next =>
      rename_i adminId sessionId rand now res hok
      obtain ⟨session, question, hfind, hc, hdraw, hdb, hres⟩ := nextQuestion_ok hok
      subst hdb
      obtain ⟨s, hs, hcase⟩ := updateSessions_mem hs'
      rcases hcase with ⟨hid, hfs⟩ | ⟨hnid, hfs⟩
      · obtain ⟨hmem, hsid, -⟩ := findSessionAdmin_some hfind
        have hss : s = session := session_unique hnd hs hmem (by rw [hid, hsid])
        refine ⟨s, hs, by rw [hfs]; rfl, ?_⟩
        rw [hfs]
        rcases canTransition_to_active (hss ▸ hc) with hl | hr
        · exact Or.inr (Or.inl ⟨hl, rfl⟩)
        · exact Or.inr (Or.inr (Or.inr (Or.inl ⟨hr, rfl⟩)))
      · exact ⟨s, hs, by rw [hfs], Or.inl (by rw [hfs])⟩
    | reveal =>
      rename_i adminId sessionId res hok
      obtain ⟨session, hfind, hc, hdb, hres⟩ := forceReveal_ok hok
      subst hdb
      obtain ⟨s, hs, hcase⟩ := updateSessions_mem hs'
      rcases hcase with ⟨hid, hfs⟩ | ⟨hnid, hfs⟩
      · obtain ⟨hmem, hsid, -⟩ := findSessionAdmin_some hfind
        have hss : s = session := session_unique hnd hs hmem (by rw [hid, hsid])
        refine ⟨s, hs, by rw [hfs], ?_⟩
        rw [hfs]
        exact Or.inr (Or.inr (Or.inl ⟨canTransition_to_revealing (hss ▸ hc), rfl⟩))
      · exact ⟨s, hs, by rw [hfs], Or.inl (by rw [hfs])⟩
    | finish =>
      rename_i adminId sessionId now res w hok
      obtain ⟨session, hfind, hst, hw, hdb, hres⟩ := endGame_ok hok
      subst hdb
      obtain ⟨s, hs, hcase⟩ := updateSessions_mem hs'
      rcases hcase with ⟨hid, hfs⟩ | ⟨hnid, hfs⟩
      · obtain ⟨hmem, hsid, -⟩ := findSessionAdmin_some hfind
        have hss : s = session := session_unique hnd hs hmem (by rw [hid, hsid])
        refine ⟨s, hs, by rw [hfs]; rfl, ?_⟩
        rw [hfs]
        refine Or.inr (Or.inr (Or.inr (Or.inr ⟨?_, rfl⟩)))
        rw [hss]
        rcases hst with h1 | h2 | h3
        · exact Or.inr (Or.inr h1)
        · exact Or.inr (Or.inl h2)
        · exact Or.inl h3
      · exact ⟨s, hs, by rw [hfs], Or.inl (by rw [hfs])⟩
    | submit =>
      rename_i playerId sessionId questionId sel r hok
      obtain ⟨session, player, question, hfind, hactive, hcur, -, -, -, -, -,
        -, -, -, -, hsess, -, -, -, -⟩ := submitAnswer_ok hok
      cases hall : r.allAnswered with
      | false =>
        rw [hall, if_neg (by simp)] at hsess
        rw [hsess] at hs'
        exact ⟨s', hs', rfl, Or.inl rfl⟩
      | true =>
        rw [hall, if_pos rfl] at hsess
        rw [hsess] at hs'
        obtain ⟨s, hs, hcase⟩ := updateSessions_mem hs'
        rcases hcase with ⟨hid, hfs⟩ | ⟨hnid, hfs⟩
        · obtain ⟨hmem, hsid⟩ := findSessionById_some hfind
          have hss : s = session := session_unique hnd hs hmem (by rw [hid, hsid])
          refine ⟨s, hs, by rw [hfs], ?_⟩
          rw [hfs]
          exact Or.inr (Or.inr (Or.inl ⟨hss ▸ hactive, rfl⟩))
        · exact ⟨s, hs, by rw [hfs], Or.inl (by rw [hfs])⟩
  · intro db adminId sessionId now session hfind hst
    exact endGame_rejected_when_ended hfind hst

/-- Witness for C1 at concrete inputs: the legal-transition part applied to
the `forceReveal` step from `dbActive`, and the rejection part applied to the
already-ended `dbEnded`. -/
theorem status_transitions_follow_table_witness :
    (∃ s, s ∈ dbActive.sessions ∧ s.id = sessionRevealing.id ∧
        statusChangeLegal s.status sessionRevealing.status) ∧
    endGame dbEnded 7 5 3 =
      .error ⟨.BAD_REQUEST, "Cannot end game from current state"⟩ :=
  ⟨status_transitions_follow_table.1 dbActive dbRevealing
      (GameStep.reveal dbActive 7 5 dbRevealing sessionRevealing rfl)
      (by decide) sessionRevealing (by decide),
    status_transitions_follow_table.2 dbEnded 7 5 3 sessionEnded rfl rfl⟩

/-- Inversion for a successful `sessions.create`: the inserted session starts
in `lobby` with no current question. -/
theorem createSession_ok {db : DB} {adminId : Nat} {slug : String}
    {bankId dur newId : Nat} {db' : DB} {res : Session}
    (h : createSession db adminId slug bankId dur newId = .ok (db', res)) :
    res = { id := newId, slug := uniquifySlug db slug, bank_id := bankId,
            admin_id := adminId, status := .lobby, current_question_id := none,
            round_started_at := none, round_duration_seconds := dur,
            winner_player_id := none, ended_at := none } ∧
    db' = { db with sessions := db.sessions ++ [res] } := by
  unfold createSession at h
  split at h
  · cases h
  · split at h
    · cases h
    · simp only [Except.ok.injEq, Prod.mk.injEq] at h
      obtain ⟨h1, h2⟩ := h
      exact ⟨h2.symm, by rw [← h1, ← h2]⟩

/-- C8 counterexample: the claimed invariant (current_question_id null iff
status is lobby or ended) holds in the reachable state `dbAnswered`, yet the
`endGame` step to `dbEnded` breaks it: the ended session keeps question 11 as
its current question. -/
theorem cqid_null_iff_lobby_or_ended_fails :
    CqidNullIffLobbyOrEnded dbAnswered ∧
    GameStep dbAnswered dbEnded ∧
    ¬ CqidNullIffLobbyOrEnded dbEnded :=
  ⟨by decide,
   GameStep.finish dbAnswered 7 5 2 dbEnded sessionEnded
     (some ⟨"p1", 5, 1, true, 0⟩) rfl,
   by decide⟩

/-- C8 amended: every operation (create, startGame, nextQuestion,
forceReveal, endGame, submitAnswer) preserves the invariant that
current_question_id is null while the status is lobby and non-null while the
status is active or revealing; an ended session may keep its last
current_question_id, since endGame never clears it. -/
theorem cqid_invariant_preserved :
    ∀ db db', SysStep db db' → (db.sessions.map Session.id).Nodup →
      CqidInv db → CqidInv db' := by
  intro db db' hstep hnd hinv
  cases hstep with
  | create =>
    rename_i adminId slug bankId dur newId res hok
    obtain ⟨hres, hdb⟩ := createSession_ok hok
    subst hdb
    intro s' hs'
    rcases List.mem_append.mp hs' with hold | hnew
    · exact hinv s' hold
    · have : s' = res := by simpa using hnew
      subst this
      rw [hres]
      exact ⟨fun _ => rfl, fun h => by rcases h with h | h <;> cases h⟩
  | game =>
    rename_i hg
    cases hg with
    | start =>
      rename_i adminId sessionId rand now res hok
      obtain ⟨session, question, hfind, hc, hdraw, hdb, hres⟩ := startGame_ok hok
      subst hdb
      intro s' hs'
      obtain ⟨s, hs, hcase⟩ := updateSessions_mem hs'
      rcases hcase with ⟨hid, hfs⟩ | ⟨hnid, hfs⟩
      · subst hfs
        exact ⟨(fun h => nomatch h), fun _ => by simp [setRoundActive]⟩
      · subst hfs
        exact hinv s' hs
    | next =>
      rename_i adminId sessionId rand now res hok
      obtain ⟨session, question, hfind, hc, hdraw, hdb, hres⟩ := nextQuestion_ok hok
      subst hdb
      intro s' hs'
      obtain ⟨s, hs, hcase⟩ := updateSessions_mem hs'
      rcases hcase with ⟨hid, hfs⟩ | ⟨hnid, hfs⟩
      · subst hfs
        exact ⟨(fun h => nomatch h), fun _ => by simp [setRoundActive]⟩
      · subst hfs
        exact hinv s' hs
    | reveal =>
      rename_i adminId sessionId res hok
      obtain ⟨session, hfind, hc, hdb, hres⟩ := forceReveal_ok hok
      subst hdb
      intro s' hs'
      obtain ⟨s, hs, hcase⟩ := updateSessions_mem hs'
      rcases hcase with ⟨hid, hfs⟩ | ⟨hnid, hfs⟩
      · obtain ⟨hmem, hsid, -⟩ := findSessionAdmin_some hfind
        have hss : s = session := session_unique hnd hs hmem (by rw [hid, hsid])
        subst hfs
        refine ⟨(fun h => nomatch h), fun _ => ?_⟩
        have hact : session.status = .active := canTransition_to_revealing hc
        have := (hinv session hmem).2 (Or.inl hact)
        simpa [hss] using this
      · subst hfs
        exact hinv s' hs
    | finish =>
      rename_i adminId sessionId now res w hok
      obtain ⟨session, hfind, hst, hw, hdb, hres⟩ := endGame_ok hok
      subst hdb
      intro s' hs'
      obtain ⟨s, hs, hcase⟩ := updateSessions_mem hs'
      rcases hcase with ⟨hid, hfs⟩ | ⟨hnid, hfs⟩
      · subst hfs
        exact ⟨(fun h => nomatch h), fun h => by rcases h with h | h <;> exact nomatch h⟩
      · subst hfs
        exact hinv s' hs
    | submit =>
      rename_i playerId sessionId questionId sel r hok
      obtain ⟨session, player, question, hfind, hactive, hcur, -, -, -, -, -,
        -, -, -, -, hsess, -, -, -, -⟩ := submitAnswer_ok hok
      intro s' hs'
      cases hall : r.allAnswered with
      | false =>
        rw [hall, if_neg (by simp)] at hsess
        rw [hsess] at hs'
        exact hinv s' hs'
      | true =>
        rw [hall, if_pos rfl] at hsess
        rw [hsess] at hs'
        obtain ⟨s, hs, hcase⟩ := updateSessions_mem hs'
        rcases hcase with ⟨hid, hfs⟩ | ⟨hnid, hfs⟩
        · obtain ⟨hmem, hsid⟩ := findSessionById_some hfind
          have hss : s = session := session_unique hnd hs hmem (by rw [hid, hsid])
          subst hfs
          refine ⟨(fun h => nomatch h), fun _ => ?_⟩
          simp only [hss, hcur]
          exact fun h => by cases h
        · subst hfs
          exact hinv s' hs

/-- Witness for the amended C8 invariant: the `forceReveal` step from
`dbActive` preserves it. -/
theorem cqid_invariant_preserved_witness : CqidInv dbRevealing :=
  cqid_invariant_preserved dbActive dbRevealing
    (SysStep.game dbActive dbRevealing
      (GameStep.reveal dbActive 7 5 dbRevealing sessionRevealing rfl))
    (by decide) (by decide)

/-- C3: every drawn question belongs to the bank and is unused; the draw
returns the sentinel exactly when the bank minus the used set is empty; the
used-id set of every session only grows across game steps and stays free of
duplicates; and an exhausted draw makes startGame and nextQuestion fail with
their distinct exhausted client errors. -/
theorem draw_engine_correct :
    (∀ db sessionId bankId rand q,
      drawRandomQuestion db sessionId bankId rand = some q →
      q ∈ db.questions ∧ q.bank_id = bankId ∧
        q.id ∉ usedIdsFor db sessionId) ∧
    (∀ db sessionId bankId rand,
      drawRandomQuestion db sessionId bankId rand = none ↔
        availableFor db sessionId bankId = []) ∧
    (∀ db db', GameStep db db' → ∀ sid, ∃ tail,
      usedIdsFor db' sid = usedIdsFor db sid ++ tail ∧
      ((usedIdsFor db sid).Nodup → (usedIdsFor db' sid).Nodup)) ∧
    (∀ db adminId sessionId rand now session,
      findSessionAdmin db sessionId adminId = some session →
      canTransition session.status .active = true →
      (playersOf db sessionId).isEmpty = false →
      drawRandomQuestion db sessionId session.bank_id rand = none →
      startGame db adminId sessionId rand now =
        .error ⟨.BAD_REQUEST, "No questions available in the bank"⟩) ∧
    (∀ db adminId sessionId rand now session,
      findSessionAdmin db sessionId adminId = some session →
      canTransition session.status .active = true →
      drawRandomQuestion db sessionId session.bank_id rand = none →
      nextQuestion db adminId sessionId rand now =
        .error ⟨.BAD_REQUEST,
          "No more questions available. Consider ending the game."⟩) := by
  refine ⟨?_, ?_, ?_, ?_, ?_⟩
  · intro db sessionId bankId rand q h
    exact availableFor_mem (drawRandomQuestion_mem h)
  · intro db sessionId bankId rand
    exact drawRandomQuestion_none_iff
  · intro db db' hstep sid
    cases hstep with
    | start =>
      rename_i adminId sessionId rand now res hok
      obtain ⟨session, question, hfind, hc, hdraw, hdb, hres⟩ := startGame_ok hok
      have hu : db'.usedQuestions = db.usedQuestions ++
          [⟨sessionId, question.id,
            (db.usedQuestions.filter (fun u => u.session_id = sessionId)).length + 1⟩] := by
        rw [hdb]
      have hrow : usedIdsFor db' sid =
          usedIdsFor db sid ++ (if sessionId = sid then [question.id] else []) := by
        unfold usedIdsFor
        rw [hu, List.filter_append, List.map_append]
        congr 1
        by_cases hsid : sessionId = sid
        · simp [hsid]
        · simp [hsid]
      refine ⟨_, hrow, ?_⟩
      intro hnd
      rw [hrow]
      by_cases hsid : sessionId = sid
      · subst hsid
        rw [if_pos rfl]
        have hfresh := (availableFor_mem (drawRandomQuestion_mem hdraw)).2.2
        simp [List.nodup_append, hnd, hfresh]
      · rw [if_neg hsid]
        simpa using hnd
    | next =>
      rename_i adminId sessionId rand now res hok
      obtain ⟨session, question, hfind, hc, hdraw, hdb, hres⟩ := nextQuestion_ok hok
      have hu : db'.usedQuestions = db.usedQuestions ++
          [⟨sessionId, question.id,
            (db.usedQuestions.filter (fun u => u.session_id = sessionId)).length + 1⟩] := by
        rw [hdb]
      have hrow : usedIdsFor db' sid =
          usedIdsFor db sid ++ (if sessionId = sid then [question.id] else []) := by
        unfold usedIdsFor
        rw [hu, List.filter_append, List.map_append]
        congr 1
        by_cases hsid : sessionId = sid
        · simp [hsid]
        · simp [hsid]
      refine ⟨_, hrow, ?_⟩
      intro hnd
      rw [hrow]
      by_cases hsid : sessionId = sid
      · subst hsid
        rw [if_pos rfl]
        have hfresh := (availableFor_mem (drawRandomQuestion_mem hdraw)).2.2
        simp [List.nodup_append, hnd, hfresh]
      · rw [if_neg hsid]
        simpa using hnd
    | reveal =>
      rename_i adminId sessionId res hok
      obtain ⟨session, hfind, hc, hdb, hres⟩ := forceReveal_ok hok
      subst hdb
      exact ⟨[], by rw [List.append_nil]; rfl, fun h => h⟩
    | finish =>
      rename_i adminId sessionId now res w hok
      obtain ⟨session, hfind, hst, hw, hdb, hres⟩ := endGame_ok hok
      subst hdb
      exact ⟨[], by rw [List.append_nil]; rfl, fun h => h⟩
    | submit =>
      rename_i playerId sessionId questionId sel r hok
      obtain ⟨session, player, question, hfind, hactive, hcur, -, -, -, -, -,
        -, -, -, -, -, hused, -, -, -⟩ := submitAnswer_ok hok
      have heq : usedIdsFor db' sid = usedIdsFor db sid := by
        unfold usedIdsFor
        rw [hused]
      exact ⟨[], by rw [List.append_nil, heq], fun h => heq ▸ h⟩
  · intro db adminId sessionId rand now session hfind hc hplayers hdraw
    unfold startGame
    rw [hfind]
    dsimp only
    rw [if_neg (by simp [hc]), if_neg (by simp [hplayers]), hdraw]
  · intro db adminId sessionId rand now session hfind hc hdraw
    unfold nextQuestion
    rw [hfind]
    dsimp only
    rw [if_neg (by simp [hc]), hdraw]

/-- Witness for C3 at concrete inputs: the draw from `dbLobby` yields
question 11 (fresh and in bank 1); drawing in `dbActive` (all questions used)
is exhausted, and `nextQuestion` then fails with the exhausted error. -/
theorem draw_engine_correct_witness :
    ((⟨11, 1, .single⟩ : Question) ∈ dbLobby.questions ∧
      (⟨11, 1, .single⟩ : Question).bank_id = 1 ∧
      (⟨11, 1, .single⟩ : Question).id ∉ usedIdsFor dbLobby 5) ∧
    (drawRandomQuestion dbActive 5 1 0 = none ↔ availableFor dbActive 5 1 = []) ∧
    nextQuestion dbRevealing 7 5 0 9 =
      .error ⟨.BAD_REQUEST,
        "No more questions available. Consider ending the game."⟩ := by
  refine ⟨?_, draw_engine_correct.2.1 dbActive 5 1 0, ?_⟩
  · exact draw_engine_correct.1 dbLobby 5 1 0 ⟨11, 1, .single⟩ (by rfl)
  · exact draw_engine_correct.2.2.2.2 dbRevealing 7 5 0 9 sessionRevealing
      rfl (by decide) (by decide)

/-! ### Lemmas about the scoring engine -/

theorem correct_incorrect_disjoint {options : List AnswerOption}
    (hnd : (options.map (fun o => o.id)).Nodup) {x : Nat}
    (hc : x ∈ correctIds options) (hi : x ∈ incorrectIds options) : False := by
  obtain ⟨o1, ho1f, ho1x⟩ := List.mem_map.mp hc
  obtain ⟨o2, ho2f, ho2x⟩ := List.mem_map.mp hi
  have h1 := List.mem_filter.mp ho1f
  have h2 := List.mem_filter.mp ho2f
  have heq : o1 = o2 :=
    List.inj_on_of_nodup_map hnd h1.1 h2.1 (by rw [ho1x, ho2x])
  have hb := h2.2
  rw [← heq, h1.2] at hb
  simp at hb

theorem multi_fold_spec (options : List AnswerOption)
    (hnd : (options.map (fun o => o.id)).Nodup) (sel : List Nat) :
    ∀ acc : Int,
      sel.foldl
        (fun points selectedId =>
          if selectedId ∈ correctIds options then points + 1
          else if selectedId ∈ incorrectIds options then points - 1
          else points) acc =
      acc + (sel.countP (fun i => i ∈ correctIds options) : Int) -
        (sel.countP (fun i => i ∈ incorrectIds options) : Int) := by
  induction sel with
  | nil => intro acc; simp
  | cons x rest ih =>
    intro acc
    rw [List.foldl_cons]
    by_cases hc : x ∈ correctIds options
    · have hni : x ∉ incorrectIds options :=
        fun hi => correct_incorrect_disjoint hnd hc hi
      rw [if_pos hc, ih (acc + 1),
        List.countP_cons_of_pos _ _ (by simpa using hc),
        List.countP_cons_of_neg _ _ (by simpa using hni)]
      push_cast
      ring
    · rw [if_neg hc, List.countP_cons_of_neg _ _ (by simpa using hc)]
      by_cases hi : x ∈ incorrectIds options
      · rw [if_pos hi, ih (acc - 1),
          List.countP_cons_of_pos _ _ (by simpa using hi)]
        push_cast
        ring
      · rw [if_neg hi, ih acc,
          List.countP_cons_of_neg _ _ (by simpa using hi)]

/-- C2: the points computed for a submission: for single-type questions,
1 exactly when a single selected option lies in the correct set, 0 in every
other case; for multi-type questions (with the real-world assumption that
option ids are unique), the count of correct selections minus the count of
incorrect selections, unselected options contributing nothing; and a
successful submitAnswer stores exactly these points. -/
theorem scoring_engine_correct :
    (∀ (options : List AnswerOption) (sel : List Nat),
      computePoints .single options sel = 1 ∨
        computePoints .single options sel = 0) ∧
    (∀ (options : List AnswerOption) (sel : List Nat),
      computePoints .single options sel = 1 ↔
        ∃ x, sel = [x] ∧ x ∈ correctIds options) ∧
    (∀ (options : List AnswerOption) (sel : List Nat),
      (options.map (fun o => o.id)).Nodup →
      computePoints .multi options sel =
        (sel.countP (fun i => i ∈ correctIds options) : Int) -
          (sel.countP (fun i => i ∈ incorrectIds options) : Int)) ∧
    (∀ db (playerId : String) (sessionId questionId : Nat) (sel : List Nat)
        (db' : DB) (r : SubmitResult),
      submitAnswer db playerId sessionId questionId sel = .ok (db', r) →
      ∃ question, findQuestion db questionId = some question ∧
        r.points =
          computePoints question.question_type (optionsOf db questionId) sel) := by
  refine ⟨?_, ?_, ?_, ?_⟩
  · intro options sel
    simp only [computePoints]
    split
    · exact Or.inl rfl
    · exact Or.inr rfl
  · intro options sel
    constructor
    · intro h
      simp only [computePoints] at h
      split at h
      · rename_i hcond
        obtain ⟨hlen, hmem⟩ := hcond
        cases sel with
        | nil => cases hlen
        | cons x t =>
          cases t with
          | nil => exact ⟨x, rfl, hmem⟩
          | cons y t' => simp at hlen
      · cases h
    · rintro ⟨x, rfl, hx⟩
      simp only [computePoints]
      rw [if_pos ⟨rfl, hx⟩]
  · intro options sel hnd
    simp only [computePoints]
    rw [multi_fold_spec options hnd sel 0]
    ring
  · intro db playerId sessionId questionId sel db' r hok
    obtain ⟨session, player, question, -, -, -, -, -, hq, hpts, -, -, -, -, -,
      -, -, -, -, -⟩ := submitAnswer_ok hok
    exact ⟨question, hq, hpts⟩

/-- Witness for C2 at concrete inputs: the single-type question 11 scored for
selection [101], the multi-type option set scored for selection [1, 3], and
the points stored by the concrete submission in `dbActive`. -/
theorem scoring_engine_correct_witness :
    (computePoints .single (optionsOf dbActive 11) [101] = 1 ↔
      ∃ x, [101] = [x] ∧ x ∈ correctIds (optionsOf dbActive 11)) ∧
    (computePoints .multi optsMulti [1, 3] =
      (([1, 3].countP (fun i => i ∈ correctIds optsMulti)) : Int) -
        (([1, 3].countP (fun i => i ∈ incorrectIds optsMulti)) : Int)) ∧
    (∃ question, findQuestion dbActive 11 = some question ∧
      (⟨⟨"p1", 5, 11, [101], 1⟩, 1, 1, false⟩ : SubmitResult).points =
        computePoints question.question_type (optionsOf dbActive 11) [101]) :=
  ⟨scoring_engine_correct.2.1 (optionsOf dbActive 11) [101],
   scoring_engine_correct.2.2.1 optsMulti [1, 3] (by decide),
   scoring_engine_correct.2.2.2 dbActive "p1" 5 11 [101] dbAnswered
     ⟨⟨"p1", 5, 11, [101], 1⟩, 1, 1, false⟩ rfl⟩

/-! ### Error paths of submitAnswer -/

theorem submitAnswer_error_no_session {db : DB} {playerId : String}
    {sessionId questionId : Nat} {sel : List Nat}
    (h : findSessionById db sessionId = none) :
    submitAnswer db playerId sessionId questionId sel =
      .error ⟨.NOT_FOUND, "Game session not found"⟩ := by
  unfold submitAnswer
  rw [h]

theorem submitAnswer_error_not_active {db : DB} {playerId : String}
    {sessionId questionId : Nat} {sel : List Nat} {session : Session}
    (hfind : findSessionById db sessionId = some session)
    (hstatus : session.status ≠ .active) :
    submitAnswer db playerId sessionId questionId sel =
      .error ⟨.BAD_REQUEST, "Cannot submit answer when game is not active"⟩ := by
  unfold submitAnswer
  rw [hfind]
  dsimp only
  rw [if_pos hstatus]

theorem submitAnswer_error_stale {db : DB} {playerId : String}
    {sessionId questionId : Nat} {sel : List Nat} {session : Session}
    (hfind : findSessionById db sessionId = some session)
    (hstatus : session.status = .active)
    (hcur : session.current_question_id ≠ some questionId) :
    submitAnswer db playerId sessionId questionId sel =
      .error ⟨.BAD_REQUEST, "This is not the current question"⟩ := by
  unfold submitAnswer
  rw [hfind]
  dsimp only
  rw [if_neg (by simp [hstatus]), if_pos hcur]

theorem submitAnswer_error_no_player {db : DB} {playerId : String}
    {sessionId questionId : Nat} {sel : List Nat} {session : Session}
    (hfind : findSessionById db sessionId = some session)
    (hstatus : session.status = .active)
    (hcur : session.current_question_id = some questionId)
    (hplayer : findPlayer db playerId sessionId = none) :
    submitAnswer db playerId sessionId questionId sel =
      .error ⟨.NOT_FOUND, "Player not found in this session"⟩ := by
  unfold submitAnswer
  rw [hfind]
  dsimp only
  rw [if_neg (by simp [hstatus]), if_neg (by simp [hcur]), hplayer]

theorem submitAnswer_error_duplicate {db : DB} {playerId : String}
    {sessionId questionId : Nat} {sel : List Nat} {session : Session}
    {player : Player}
    (hfind : findSessionById db sessionId = some session)
    (hstatus : session.status = .active)
    (hcur : session.current_question_id = some questionId)
    (hplayer : findPlayer db playerId sessionId = some player)
    (hdup : ∃ resp, resp ∈ db.responses ∧ resp.player_id = playerId ∧
      resp.question_id = questionId) :
    submitAnswer db playerId sessionId questionId sel =
      .error ⟨.BAD_REQUEST, "You have already answered this question"⟩ := by
  obtain ⟨resp, hmem, hp, hq⟩ := hdup
  have hfmem : resp ∈ db.responses.filter
      (fun x => x.player_id = playerId ∧ x.question_id = questionId) :=
    List.mem_filter.mpr ⟨hmem, by simp [hp, hq]⟩
  have hne : db.responses.filter
      (fun x => x.player_id = playerId ∧ x.question_id = questionId) ≠ [] :=
    List.ne_nil_of_mem hfmem
  have hemp : (db.responses.filter
      (fun x => x.player_id = playerId ∧ x.question_id = questionId)).isEmpty
        = false := by
    simpa [List.isEmpty_iff] using hne
  unfold submitAnswer
  rw [hfind]
  dsimp only
  rw [if_neg (by simp [hstatus]), if_neg (by simp [hcur]), hplayer]
  dsimp only
  rw [if_pos (show (!(db.responses.filter
      (fun x => x.player_id = playerId ∧ x.question_id = questionId)).isEmpty)
        = true by rw [hemp]; rfl)]

/-- C5: submitAnswer rejects, leaving the database unchanged, whenever the
session does not exist (NotFound), the status is not exactly active, or the
submitted question is not the current question; in the model an error result
carries no new database, so rejection and no-state-change coincide. -/
theorem stale_submissions_rejected :
    ∀ db (playerId : String) (sessionId questionId : Nat) (sel : List Nat),
      (findSessionById db sessionId = none →
        submitAnswer db playerId sessionId questionId sel =
          .error ⟨.NOT_FOUND, "Game session not found"⟩) ∧
      (∀ session, findSessionById db sessionId = some session →
        session.status ≠ .active →
        submitAnswer db playerId sessionId questionId sel =
          .error ⟨.BAD_REQUEST, "Cannot submit answer when game is not active"⟩) ∧
      (∀ session, findSessionById db sessionId = some session →
        session.status = .active →
        session.current_question_id ≠ some questionId →
        submitAnswer db playerId sessionId questionId sel =
          .error ⟨.BAD_REQUEST, "This is not the current question"⟩) := by
  intro db playerId sessionId questionId sel
  exact ⟨fun h => submitAnswer_error_no_session h,
    fun session hfind hstatus => submitAnswer_error_not_active hfind hstatus,
    fun session hfind hstatus hcur =>
      submitAnswer_error_stale hfind hstatus hcur⟩

/-- Witness for C5 at concrete inputs: an unknown session id, a lobby
session, and a stale question id are all rejected with the modelled errors. -/
theorem stale_submissions_rejected_witness :
    (submitAnswer dbActive "p1" 999 11 [101] =
      .error ⟨.NOT_FOUND, "Game session not found"⟩) ∧
    (submitAnswer dbLobby "p1" 5 11 [101] =
      .error ⟨.BAD_REQUEST, "Cannot submit answer when game is not active"⟩) ∧
    (submitAnswer dbActive "p1" 5 99 [101] =
      .error ⟨.BAD_REQUEST, "This is not the current question"⟩) :=
  ⟨(stale_submissions_rejected dbActive "p1" 999 11 [101]).1 rfl,
   (stale_submissions_rejected dbLobby "p1" 5 11 [101]).2.1 sessionLobby
     rfl (by decide),
   (stale_submissions_rejected dbActive "p1" 5 99 [101]).2.2 sessionActive
     rfl rfl (by decide)⟩

/-- C6 counterexample: after the successful submission that produced
`dbAnswered`, re-submitting the same (player, question) pair with a different
payload is rejected with a BAD_REQUEST error, not the CONFLICT error the
claim names. -/
theorem duplicate_submission_conflict_refuted :
    submitAnswer dbActive "p1" 5 11 [101] =
      .ok (dbAnswered, ⟨⟨"p1", 5, 11, [101], 1⟩, 1, 1, false⟩) ∧
    submitAnswer dbAnswered "p1" 5 11 [102] =
      .error ⟨.BAD_REQUEST, "You have already answered this question"⟩ ∧
    ErrCode.BAD_REQUEST ≠ ErrCode.CONFLICT :=
  ⟨rfl, rfl, by decide⟩

/-- C6 amended: once a response for the (player, question) pair is stored,
every later submitAnswer call for that pair is rejected regardless of
payload — with the BadRequest already-answered error when the session,
status, question and player checks pass — and, an error carrying no new
database, no second response is stored and no score changes. -/
theorem duplicate_submission_rejected :
    ∀ db (playerId : String) (sessionId questionId : Nat) (sel : List Nat),
      (∃ resp, resp ∈ db.responses ∧ resp.player_id = playerId ∧
          resp.question_id = questionId) →
      (∃ e, submitAnswer db playerId sessionId questionId sel = .error e) ∧
      (∀ session player, findSessionById db sessionId = some session →
        session.status = .active →
        session.current_question_id = some questionId →
        findPlayer db playerId sessionId = some player →
        submitAnswer db playerId sessionId questionId sel =
          .error ⟨.BAD_REQUEST, "You have already answered this question"⟩) := by
  intro db playerId sessionId questionId sel hdup
  constructor
  · cases hfind : findSessionById db sessionId with
    | none => exact ⟨_, submitAnswer_error_no_session hfind⟩
    | some session =>
      by_cases hstatus : session.status = .active
      · by_cases hcur : session.current_question_id = some questionId
        · cases hplayer : findPlayer db playerId sessionId with
          | none =>
            exact ⟨_, submitAnswer_error_no_player hfind hstatus hcur hplayer⟩
          | some player =>
            exact ⟨_, submitAnswer_error_duplicate hfind hstatus hcur hplayer hdup⟩
        · exact ⟨_, submitAnswer_error_stale hfind hstatus hcur⟩
      · exact ⟨_, submitAnswer_error_not_active hfind hstatus⟩
  · intro session player hfind hstatus hcur hplayer
    exact submitAnswer_error_duplicate hfind hstatus hcur hplayer hdup

/-- Witness for the amended C6 at concrete inputs: in `dbAnswered`, where p1
already answered question 11, re-submitting with a different payload fails. -/
theorem duplicate_submission_rejected_witness :
    (∃ e, submitAnswer dbAnswered "p1" 5 11 [101, 102] = .error e) ∧
    submitAnswer dbAnswered "p1" 5 11 [101, 102] =
      .error ⟨.BAD_REQUEST, "You have already answered this question"⟩ :=
  have h := duplicate_submission_rejected dbAnswered "p1" 5 11 [101, 102]
    ⟨⟨"p1", 5, 11, [101], 1⟩, by decide, rfl, rfl⟩
  ⟨h.1, h.2 sessionActive ⟨"p1", 5, 1, true, 0⟩ rfl rfl rfl rfl⟩

/-- C4: on every successful submitAnswer, the returned allAnswered flag holds
exactly when the responses recorded for the current question (including the
one just inserted) reach the count of players flagged is_connected at the
moment of the check, and the session status then reads revealing, otherwise
it stays active; a disconnected player never enters the count. -/
theorem auto_advance_iff_all_answered :
    ∀ db (playerId : String) (sessionId questionId : Nat) (sel : List Nat)
      (db' : DB) (r : SubmitResult),
      (db.sessions.map Session.id).Nodup →
      submitAnswer db playerId sessionId questionId sel = .ok (db', r) →
      (r.allAnswered = decide
        ((db'.players.filter
            (fun p => p.session_id = sessionId ∧ p.is_connected)).length ≤
          (db'.responses.filter
            (fun x => x.session_id = sessionId ∧
              x.question_id = questionId)).length)) ∧
      (∀ s', s' ∈ db'.sessions → s'.id = sessionId →
        s'.status = (if r.allAnswered then .revealing else .active)) := by
  intro db playerId sessionId questionId sel db' r hnd hok
  obtain ⟨session, player, question, hfind, hactive, hcur, -, -, -, -, -, -,
    -, -, hall, hsess, -, -, -, -⟩ := submitAnswer_ok hok
  refine ⟨hall, ?_⟩
  intro s' hs' hsid
  cases hall2 : r.allAnswered with
  | true =>
    rw [hall2, if_pos rfl] at hsess
    rw [if_pos rfl]
    rw [hsess] at hs'
    obtain ⟨s, hs, hcase⟩ := updateSessions_mem hs'
    rcases hcase with ⟨hid, hfs⟩ | ⟨hnid, hfs⟩
    · rw [hfs]
    · exact absurd (by rw [← hfs]; exact hsid) hnid
  | false =>
    rw [hall2, if_neg (by simp)] at hsess
    rw [if_neg (by simp)]
    rw [hsess] at hs'
    obtain ⟨hmem, hsid2⟩ := findSessionById_some hfind
    have hs' : s' = session := session_unique hnd hs' hmem (by rw [hsid, hsid2])
    rw [hs', hactive]

/-- Witness for C4 at the concrete last submission: p2 answers in
`dbAnswered`, both responses are in, the flag is true and the session reads
revealing. -/
theorem auto_advance_iff_all_answered_witness :
    ((⟨⟨"p2", 5, 11, [102], 0⟩, 0, 0, true⟩ : SubmitResult).allAnswered =
      decide
        ((dbAllAnswered.players.filter
            (fun p => p.session_id = 5 ∧ p.is_connected)).length ≤
          (dbAllAnswered.responses.filter
            (fun x => x.session_id = 5 ∧ x.question_id = 11)).length)) ∧
    (∀ s', s' ∈ dbAllAnswered.sessions → s'.id = 5 →
      s'.status = (if (⟨⟨"p2", 5, 11, [102], 0⟩, 0, 0, true⟩ :
        SubmitResult).allAnswered then .revealing else .active)) :=
  auto_advance_iff_all_answered dbAnswered "p2" 5 11 [102] dbAllAnswered
    ⟨⟨"p2", 5, 11, [102], 0⟩, 0, 0, true⟩ (by decide) rfl

/-- C9: on every successful submitAnswer the player's stored score is their
prior score plus the Scoring Engine points (cumulative, never an overwrite),
the returned newScore equals that sum, and no other player's row changes. -/
theorem score_accumulates :
    ∀ db (playerId : String) (sessionId questionId : Nat) (sel : List Nat)
      (db' : DB) (r : SubmitResult),
      submitAnswer db playerId sessionId questionId sel = .ok (db', r) →
      ∃ player question,
        findPlayer db playerId sessionId = some player ∧
        findQuestion db questionId = some question ∧
        r.points =
          computePoints question.question_type (optionsOf db questionId) sel ∧
        r.newScore = player.score + r.points ∧
        (∀ p', p' ∈ db'.players → p'.id = playerId →
          p'.score = player.score + r.points) ∧
        (∀ p', p' ∈ db'.players → p'.id ≠ playerId → p' ∈ db.players) := by
  intro db playerId sessionId questionId sel db' r hok
  obtain ⟨session, player, question, -, -, -, hplayer, -, hq, hpts, -, hns,
    -, hpl, -, -, -, -, -, -⟩ := submitAnswer_ok hok
  refine ⟨player, question, hplayer, hq, hpts, hns, ?_, ?_⟩
  · intro p' hp' hid
    rw [hpl] at hp'
    obtain ⟨p, hp, hcase⟩ := updatePlayers_mem hp'
    rcases hcase with ⟨hpid, hfp⟩ | ⟨hnid, hfp⟩
    · rw [hfp]
    · exact absurd (by rw [← hfp]; exact hid) hnid
  · intro p' hp' hid
    rw [hpl] at hp'
    obtain ⟨p, hp, hcase⟩ := updatePlayers_mem hp'
    rcases hcase with ⟨hpid, hfp⟩ | ⟨hnid, hfp⟩
    · exact absurd (by rw [hfp]; exact hpid) hid
    · rw [hfp]; exact hp

/-- Witness for C9 at the concrete first submission: p1 starts at 0, earns 1
point, and the stored and returned scores are 0 + 1. -/
theorem score_accumulates_witness :
    ∃ player question,
      findPlayer dbActive "p1" 5 = some player ∧
      findQuestion dbActive 11 = some question ∧
      (⟨⟨"p1", 5, 11, [101], 1⟩, 1, 1, false⟩ : SubmitResult).points =
        computePoints question.question_type (optionsOf dbActive 11) [101] ∧
      (⟨⟨"p1", 5, 11, [101], 1⟩, 1, 1, false⟩ : SubmitResult).newScore =
        player.score +
          (⟨⟨"p1", 5, 11, [101], 1⟩, 1, 1, false⟩ : SubmitResult).points ∧
      (∀ p', p' ∈ dbAnswered.players → p'.id = "p1" →
        p'.score = player.score +
          (⟨⟨"p1", 5, 11, [101], 1⟩, 1, 1, false⟩ : SubmitResult).points) ∧
      (∀ p', p' ∈ dbAnswered.players → p'.id ≠ "p1" →
        p' ∈ dbActive.players) :=
  score_accumulates dbActive "p1" 5 11 [101] dbAnswered
    ⟨⟨"p1", 5, 11, [101], 1⟩, 1, 1, false⟩ rfl

/-! ### Lemmas about the winner resolver -/

theorem foldl_pickTopScorer_some (b : Player) (t : List Player) :
    ∃ w, t.foldl pickTopScorer (some b) = some w ∧
      ((w = b ∧ ∀ p ∈ t, p.score ≤ b.score) ∨
       (∃ t1 t2, t = t1 ++ w :: t2 ∧ b.score < w.score ∧
         (∀ p ∈ t1, p.score < w.score) ∧ (∀ p ∈ t2, p.score ≤ w.score))) := by
  induction t generalizing b with
  | nil => exact ⟨b, rfl, Or.inl ⟨rfl, by simp⟩⟩
  | cons hd tl ih =>
    rw [List.foldl_cons]
    by_cases hcmp : hd.score > b.score
    · rw [show pickTopScorer (some b) hd = some hd by
        simp [pickTopScorer, hcmp]]
      obtain ⟨w, hw, hspec⟩ := ih hd
      refine ⟨w, hw, Or.inr ?_⟩
      rcases hspec with ⟨rfl, hall⟩ | ⟨t1, t2, hsplit, hlt, h1, h2⟩
      · exact ⟨[], tl, rfl, hcmp, by simp, hall⟩
      · refine ⟨hd :: t1, t2, by rw [hsplit]; rfl, lt_trans hcmp hlt, ?_, h2⟩
        intro p hp
        rcases List.mem_cons.mp hp with rfl | hp'
        · exact hlt
        · exact h1 p hp'
    · rw [show pickTopScorer (some b) hd = some b by
        simp [pickTopScorer, hcmp]]
      obtain ⟨w, hw, hspec⟩ := ih b
      refine ⟨w, hw, ?_⟩
      rcases hspec with ⟨rfl, hall⟩ | ⟨t1, t2, hsplit, hlt, h1, h2⟩
      · refine Or.inl ⟨rfl, ?_⟩
        intro p hp
        rcases List.mem_cons.mp hp with rfl | hp'
        · exact not_lt.mp hcmp
        · exact hall p hp'
      · refine Or.inr ⟨hd :: t1, t2, by rw [hsplit]; rfl, hlt, ?_, h2⟩
        intro p hp
        rcases List.mem_cons.mp hp with rfl | hp'
        · exact lt_of_le_of_lt (not_lt.mp hcmp) hlt
        · exact h1 p hp'

theorem calculateWinner_spec (db : DB) (sessionId : Nat) :
    (calculateWinner db sessionId = none ↔ playersOf db sessionId = []) ∧
    (∀ w, calculateWinner db sessionId = some w →
      ∃ l1 l2, playersOf db sessionId = l1 ++ w :: l2 ∧
        (∀ p ∈ l1, p.score < w.score) ∧ (∀ p ∈ l2, p.score ≤ w.score)) := by
  unfold calculateWinner
  cases hl : playersOf db sessionId with
  | nil => simp
  | cons h t =>
    rw [List.foldl_cons, show pickTopScorer none h = some h from rfl]
    obtain ⟨w, hw, hspec⟩ := foldl_pickTopScorer_some h t
    rw [hw]
    constructor
    · constructor
      · intro habs; cases habs
      · intro habs; cases habs
    · intro w' hw'
      have heq : w = w' := by injection hw'
      subst heq
      rcases hspec with ⟨rfl, hall⟩ | ⟨t1, t2, hsplit, hlt, h1, h2⟩
      · exact ⟨[], t, rfl, by simp, hall⟩
      · refine ⟨h :: t1, t2, by rw [hsplit]; rfl, ?_, h2⟩
        intro p hp
        rcases List.mem_cons.mp hp with rfl | hp'
        · exact hlt
        · exact h1 p hp'

/-- C7: the winner resolved by endGame is the player with the highest score
among the session's players, the first in storage order among ties; it is
null exactly when the session has no players; the winner's id is stored as
winner_player_id; and with players A score 5 and B score 9 the winner is B. -/
theorem winner_resolution_correct :
    (∀ db (sessionId : Nat), calculateWinner db sessionId = none ↔
      playersOf db sessionId = []) ∧
    (∀ db (sessionId : Nat) w, calculateWinner db sessionId = some w →
      ∃ l1 l2, playersOf db sessionId = l1 ++ w :: l2 ∧
        (∀ p ∈ l1, p.score < w.score) ∧ (∀ p ∈ l2, p.score ≤ w.score)) ∧
    (∀ db (adminId sessionId now : Nat) (db' : DB) (res : Session)
        (w : Option Player),
      endGame db adminId sessionId now = .ok (db', res, w) →
      w = calculateWinner db sessionId ∧
      (∀ s', s' ∈ db'.sessions → s'.id = sessionId →
        s'.winner_player_id =
          (calculateWinner db sessionId).map (fun x => x.id))) ∧
    calculateWinner dbTwoPlayers 5 = some ⟨"B", 5, 9, true, 0⟩ := by
  refine ⟨fun db sessionId => (calculateWinner_spec db sessionId).1,
    fun db sessionId => (calculateWinner_spec db sessionId).2, ?_, by decide⟩
  intro db adminId sessionId now db' res w hok
  obtain ⟨session, hfind, hst, hw, hdb, hres⟩ := endGame_ok hok
  subst hw
  refine ⟨rfl, ?_⟩
  intro s' hs' hsid
  rw [hdb] at hs'
  obtain ⟨s, hs, hcase⟩ := updateSessions_mem hs'
  rcases hcase with ⟨hid, hfs⟩ | ⟨hnid, hfs⟩
  · rw [hfs]; rfl
  · exact absurd (by rw [← hfs]; exact hsid) hnid

/-- Witness for C7 at concrete inputs: B wins among A score 5 and B score 9,
in the decomposition form; ending the played sample game stores p1 as the
winner. -/
theorem winner_resolution_correct_witness :
    (∃ l1 l2, playersOf dbTwoPlayers 5 =
        l1 ++ (⟨"B", 5, 9, true, 0⟩ : Player) :: l2 ∧
      (∀ p ∈ l1, p.score < (⟨"B", 5, 9, true, 0⟩ : Player).score) ∧
      (∀ p ∈ l2, p.score ≤ (⟨"B", 5, 9, true, 0⟩ : Player).score)) ∧
    (some ⟨"p1", 5, 1, true, 0⟩ = calculateWinner dbAnswered 5 ∧
      (∀ s', s' ∈ dbEnded.sessions → s'.id = 5 →
        s'.winner_player_id =
          (calculateWinner dbAnswered 5).map (fun x => x.id))) :=
  ⟨winner_resolution_correct.2.1 dbTwoPlayers 5 ⟨"B", 5, 9, true, 0⟩ (by decide),
   winner_resolution_correct.2.2.1 dbAnswered 7 5 2 dbEnded sessionEnded
     (some ⟨"p1", 5, 1, true, 0⟩) rfl⟩

/-- C10: heartbeat on an existing player marks the row connected (so it is
counted again by the is_connected filter the submitAnswer auto-advance check
uses) and stamps last_seen_at, leaving every other row unchanged; heartbeat
on an unknown player id fails with NotFound and changes nothing. -/
theorem heartbeat_reconnects :
    ∀ db (playerId : String) (now : Nat),
      ((∃ p, p ∈ db.players ∧ p.id = playerId) →
        ∃ db', heartbeat db playerId now = .ok db' ∧
          db'.players = updatePlayers db.players playerId
            (fun p => { p with last_seen_at := now, is_connected := true }) ∧
          (∀ p', p' ∈ db'.players → p'.id = playerId →
            p'.is_connected = true ∧ p'.last_seen_at = now) ∧
          (∀ p', p' ∈ db'.players → p'.id ≠ playerId → p' ∈ db.players) ∧
          db'.sessions = db.sessions ∧ db'.responses = db.responses) ∧
      ((∀ p, p ∈ db.players → p.id ≠ playerId) →
        heartbeat db playerId now = .error ⟨.NOT_FOUND, "Player not found"⟩) := by
  intro db playerId now
  constructor
  · rintro ⟨p, hp, hid⟩
    have hne : (db.players.filter (fun q => q.id = playerId)).isEmpty = false := by
      have hm : p ∈ db.players.filter (fun q => q.id = playerId) :=
        List.mem_filter.mpr ⟨hp, by simp [hid]⟩
      simpa [List.isEmpty_iff] using List.ne_nil_of_mem hm
    refine ⟨{ db with players :=
        (updatePlayers db.players playerId
          (fun q => { q with last_seen_at := now, is_connected := true })) },
      ?_, rfl, ?_, ?_, rfl, rfl⟩
    · unfold heartbeat
      rw [if_neg (by simp [hne])]
    · intro p' hp' hid'
      obtain ⟨q, hq, hcase⟩ := updatePlayers_mem hp'
      rcases hcase with ⟨hqid, hfp⟩ | ⟨hnid, hfp⟩
      · rw [hfp]; exact ⟨rfl, rfl⟩
      · exact absurd (by rw [← hfp]; exact hid') hnid
    · intro p' hp' hid'
      obtain ⟨q, hq, hcase⟩ := updatePlayers_mem hp'
      rcases hcase with ⟨hqid, hfp⟩ | ⟨hnid, hfp⟩
      · exact absurd (by rw [hfp]; exact hqid) hid'
      · rw [hfp]; exact hq
  · intro hnone
    have hfe : db.players.filter (fun q => q.id = playerId) = [] := by
      rw [List.filter_eq_nil_iff]
      intro a ha
      simp [hnone a ha]
    unfold heartbeat
    rw [if_pos (by rw [List.isEmpty_iff]; exact hfe)]

/-- Witness for C10 at concrete inputs: a heartbeat for the disconnected p1
of `dbDisconnected` reconnects it; a heartbeat for an unknown id fails. -/
theorem heartbeat_reconnects_witness :
    (∃ db', heartbeat dbDisconnected "p1" 9 = .ok db' ∧
      db'.players = updatePlayers dbDisconnected.players "p1"
        (fun p => { p with last_seen_at := 9, is_connected := true }) ∧
      (∀ p', p' ∈ db'.players → p'.id = "p1" →
        p'.is_connected = true ∧ p'.last_seen_at = 9) ∧
      (∀ p', p' ∈ db'.players → p'.id ≠ "p1" →
        p' ∈ dbDisconnected.players) ∧
      db'.sessions = dbDisconnected.sessions ∧
      db'.responses = dbDisconnected.responses) ∧
    heartbeat dbDisconnected "ghost" 9 =
      .error ⟨.NOT_FOUND, "Player not found"⟩ :=
  ⟨(heartbeat_reconnects dbDisconnected "p1" 9).1
      ⟨⟨"p1", 5, 0, false, 3⟩, by decide, rfl⟩,
   (heartbeat_reconnects dbDisconnected "ghost" 9).2 (by decide)⟩

end GroupQuestionGame
